import Mathlib

/-!
# Verification of the Lumios core game logic (`src/game.js`)

Shallow embedding of the Lumios game's core logic: the `Ball` body with its
per-tick integration (`Ball.update`), the pairwise collision resolver
(`resolveCollision`), the conversion rule (`onHitLumie`), score/win handling
(`updateScores` / `gameOver`), the end-of-roll replay decision (`endTurn`) and
the per-tick simulation step (`updatePhysics`).

JavaScript numbers are modelled by real numbers (`ℝ`); `Math.hypot`, `Math.cos`
and `Math.sin` become `Real.sqrt`-based `hypot`, `Real.cos` and `Real.sin`.
`Math.random()` calls are modelled by explicitly injected random values (a
`Bool` for a `Math.random() > 0.5` test, an `ℝ` for a raw sample), and
`Date.now()` by an explicitly passed `now : ℕ` timestamp.

A second embedding (`JsReal := Option ℝ`, with `none` standing for a
non-finite JS number, NaN or ±Infinity) is used to track non-finite value
propagation through the collision resolver for the coincident-centers edge
case.
-/

namespace Lumios

/- ## Constants (`CONFIG` in `src/game.js`) -/

def friction : ℝ := 0.94
def angularFriction : ℝ := 0.95
def restitution : ℝ := 0.8
def stopThreshold : ℝ := 0.05
def maxPower : ℝ := 25
def dragScale : ℝ := 0.15
def wobbleStrength : ℝ := 0.15
def ballRadius : ℝ := 22
def lumieRadius : ℝ := 20
/-- `CONFIG.game.cooldown` (milliseconds). -/
def cooldown : ℕ := 4000

/-- `Math.hypot(x, y)`. -/
noncomputable def hypot (x y : ℝ) : ℝ := Real.sqrt (x ^ 2 + y ^ 2)

/- ## Colors and players -/

/-- The colors the game logic branches on. In the source these are the strings
`'red'` (neutral Lumie), `'green'`, `'blue'` and `'gold'` (player ball). -/
inductive Color where
  | red | green | blue | gold
deriving DecidableEq, Repr

/-- The two players (`1` and `2` in the source). -/
inductive Player where
  | one | two
deriving DecidableEq, Repr

/-- `this.currentPlayer === 1 ? 2 : 1`. -/
def Player.other : Player → Player
  | .one => .two
  | .two => .one

/-- `(col === 'green') ? 'blue' : 'green'` — used both for the opponent color in
`endTurn` and for the second player's color in the first-blood assignment. -/
def otherColor (c : Color) : Color := if c = .green then .blue else .green

/- ## The `Ball` class -/

/-- State of one `Ball` object. The unused `lastHit` field of the source
(written once in the constructor, never read) is omitted. `lockedUntil` is a
millisecond timestamp compared against `Date.now()`. -/
structure Ball where
  x : ℝ
  y : ℝ
  r : ℝ
  color : Color
  vx : ℝ
  vy : ℝ
  mass : ℝ
  angle : ℝ
  angularVelocity : ℝ
  heavyPhase : ℝ
  isLumie : Bool
  lockedUntil : ℕ

/-- The `Ball` constructor. `randAngle` and `randPhase` are the two
`Math.random()` samples used for the initial orientation and the heavy-phase
offset. -/
noncomputable def Ball.make (x y r : ℝ) (color : Color) (isLumie : Bool)
    (randAngle randPhase : ℝ) : Ball :=
  { x := x, y := y, r := r, color := color, vx := 0, vy := 0, mass := r,
    angle := randAngle * Real.pi * 2, angularVelocity := 0,
    heavyPhase := randPhase * Real.pi * 2, isLumie := isLumie, lockedUntil := 0 }

/-- Linear speed of a ball, `Math.hypot(this.vx, this.vy)`. -/
noncomputable def Ball.speed (b : Ball) : ℝ := hypot b.vx b.vy

/-- `Ball.update()`. `flip` is the `Math.random() > 0.5` sample used for the
random sign of the linear/angular coupling term. -/
noncomputable def Ball.update (flip : Bool) (b : Ball) : Ball :=
  -- 1. Apply physics
  let x := b.x + b.vx
  let y := b.y + b.vy
  let angle := b.angle + b.angularVelocity
  -- 2. Friction
  let vx := b.vx * friction
  let vy := b.vy * friction
  let av := b.angularVelocity * angularFriction
  -- 3. "Eccentric mass" wobble (Lumies only, while moving)
  let speed := hypot vx vy
  let wob :=
    if b.isLumie ∧ speed > 0.1 then
      let currentHeavyAngle := angle + b.heavyPhase
      let wobbleX := Real.cos currentHeavyAngle * wobbleStrength
      let wobbleY := Real.sin currentHeavyAngle * wobbleStrength
      (vx + wobbleX, vy + wobbleY,
        av + speed * 0.05 * (if flip then 1 else -1))
    else (vx, vy, av)
  -- 4. Stop threshold
  if speed < stopThreshold then
    { b with x := x, y := y, angle := angle, vx := 0, vy := 0, angularVelocity := 0 }
  else
    { b with x := x, y := y, angle := angle,
             vx := wob.1, vy := wob.2.1, angularVelocity := wob.2.2 }

/- ## Collision resolver (`Game.resolveCollision`) -/

/-- Result of one `resolveCollision(b1, b2)` call, restricted to the two balls.
`hit1`/`hit2` record whether the source would invoke `this.onHitLumie(b)` for
the respective ball (`impactPower > 0.5` and the ball is a Lumie); the
game-state effects of those calls are applied by `collidePair` below. -/
structure CollisionResult where
  b1 : Ball
  b2 : Ball
  hit1 : Bool
  hit2 : Bool

/-- `Game.resolveCollision(b1, b2)`, the ball-kinematics part: separation,
elastic velocity response, impact-intensity test, and the random angular kicks.
`k1` and `k2` are the two `Math.random()` samples of the kicks
(`b.angularVelocity += Math.random() - 0.5`). The `onHitLumie` calls only
mutate a Lumie's `color`/`lockedUntil` and game-level fields, which are
disjoint from every field written here, so applying them afterwards (in
`collidePair`) is equivalent to the source's interleaving. -/
noncomputable def resolveCollision (k1 k2 : ℝ) (b1 b2 : Ball) : CollisionResult :=
  let dx := b2.x - b1.x
  let dy := b2.y - b1.y
  let dist := hypot dx dy
  let minDist := b1.r + b2.r
  if dist < minDist then
    -- 1. Separate
    let overlap := minDist - dist
    let nx := dx / dist
    let ny := dy / dist
    -- 2. Reflect velocity
    let tx := -ny
    let ty := nx
    let dpTan1 := b1.vx * tx + b1.vy * ty
    let dpTan2 := b2.vx * tx + b2.vy * ty
    let dpNorm1 := b1.vx * nx + b1.vy * ny
    let dpNorm2 := b2.vx * nx + b2.vy * ny
    let m1 := b1.mass
    let m2 := b2.mass
    let v1n := (dpNorm1 * (m1 - m2) + 2 * m2 * dpNorm2) / (m1 + m2)
    let v2n := (dpNorm2 * (m2 - m1) + 2 * m1 * dpNorm1) / (m1 + m2)
    let impactPower := |dpNorm1 - dpNorm2|
    { b1 := { b1 with
        x := b1.x - nx * overlap * 0.5, y := b1.y - ny * overlap * 0.5,
        vx := tx * dpTan1 + nx * v1n, vy := ty * dpTan1 + ny * v1n,
        angularVelocity := b1.angularVelocity + (k1 - 0.5) },
      b2 := { b2 with
        x := b2.x + nx * overlap * 0.5, y := b2.y + ny * overlap * 0.5,
        vx := tx * dpTan2 + nx * v2n, vy := ty * dpTan2 + ny * v2n,
        angularVelocity := b2.angularVelocity + (k2 - 0.5) },
      hit1 := if impactPower > 0.5 then b1.isLumie else false,
      hit2 := if impactPower > 0.5 then b2.isLumie else false }
  else
    { b1 := b1, b2 := b2, hit1 := false, hit2 := false }

/-- The contact normal `(nx, ny)` the source computes from the two bodies'
pre-collision centers. -/
noncomputable def contactNormal (b1 b2 : Ball) : ℝ × ℝ :=
  let dx := b2.x - b1.x
  let dy := b2.y - b1.y
  let dist := hypot dx dy
  (dx / dist, dy / dist)

/-- Component of a ball's velocity along the contact normal of the pair
`(b1, b2)` (the source's `dpNorm`). -/
noncomputable def normalVel (b1 b2 b : Ball) : ℝ :=
  b.vx * (contactNormal b1 b2).1 + b.vy * (contactNormal b1 b2).2

/-- Component of a ball's velocity along the contact tangent `(tx, ty) =
(-ny, nx)` of the pair `(b1, b2)` (the source's `dpTan`). -/
noncomputable def tangentVel (b1 b2 b : Ball) : ℝ :=
  b.vx * (-(contactNormal b1 b2).2) + b.vy * (contactNormal b1 b2).1

/- ## Game state -/

/-- Turn phase: `'aiming'`, `'rolling'`, `'process_turn'`. -/
inductive TurnState where
  | aiming | rolling | process_turn
deriving DecidableEq, Repr

/-- One entry of `this.turnChanges`. The source stores the `Ball` object
reference; we store the ball's index in the combined ball list. -/
structure Change where
  ball : ℕ
  before : Color
  after : Color
deriving DecidableEq, Repr

/-- The game-logic fields of the `Game` class. Rendering and DOM fields are
out of scope; `gameOverDeclared` records an invocation of `gameOver(color)`
(whose source body only builds a DOM modal and confetti and writes no
game-logic field). The constructor-initialized `this.scores` object is dead in
the source (never written after construction) and is omitted. -/
structure GameState where
  width : ℝ
  height : ℝ
  lumies : List Ball
  playerBall : Ball
  currentPlayer : Player
  playerColors : Player → Option Color
  turnState : TurnState
  turnChanges : List Change
  turnStartTime : ℕ
  gameOverDeclared : Option Color

/-- The ball at combined index `i` of `allBalls = [...this.lumies,
this.playerBall]`. -/
def getBall (s : GameState) (i : ℕ) : Option Ball :=
  if i < s.lumies.length then s.lumies.get? i
  else if i = s.lumies.length then some s.playerBall
  else none

/-- Writing back the ball at combined index `i` (the source mutates the object
in place). -/
def setBall (s : GameState) (i : ℕ) (b : Ball) : GameState :=
  if i < s.lumies.length then { s with lumies := s.lumies.set i b }
  else { s with playerBall := b }

/- ## Scores and game over -/

/-- `Game.gameOver(winnerColor)`. In the source this only builds the victory
modal and confetti in the DOM; no game-logic field is written and the
animation loop is not stopped. We record the invocation so that termination
claims can be stated. -/
def gameOver (winnerColor : Color) (s : GameState) : GameState :=
  { s with gameOverDeclared := some winnerColor }

/-- `Game.updateScores()`: recount green and blue Lumies and declare a win at
five. (The DOM score display update is out of scope.) -/
def updateScores (s : GameState) : GameState :=
  let g := s.lumies.countP fun l => decide (l.color = .green)
  let b := s.lumies.countP fun l => decide (l.color = .blue)
  let s1 := if g = 5 then gameOver .green s else s
  if b = 5 then gameOver .blue s1 else s1

/- ## Conversion rule (`Game.onHitLumie`) -/

/-- `Game.onHitLumie(lumie)` where the struck ball is at combined index `i`.
`now` is `Date.now()` (the source reads it twice within the handler, for the
lock test and the new lock; both reads are modelled by the same `now`), and
`randPick` is the `Math.random() > 0.5` sample of the neutral-color pick. -/
def onHitLumie (now : ℕ) (randPick : Bool) (i : ℕ) (s : GameState) : GameState :=
  match getBall s i with
  | none => s
  | some lumie =>
    if now < lumie.lockedUntil then s
    else
      let prevColor := lumie.color
      -- Logic: Red -> Random(Green/Blue), Green -> Blue, Blue -> Green
      let step :
          Color × (Player → Option Color) :=
        if lumie.color = .red then
          let pick : Color := if randPick then .green else .blue
          -- First blood assignment
          let pcs :=
            if s.playerColors .one = none ∧ s.playerColors .two = none then
              fun p =>
                if p = s.currentPlayer then some pick
                else if p = s.currentPlayer.other then some (otherColor pick)
                else s.playerColors p
            else s.playerColors
          (pick, pcs)
        else if lumie.color = .green then (.blue, s.playerColors)
        else if lumie.color = .blue then (.green, s.playerColors)
        else (lumie.color, s.playerColors)
      -- Lock it, track the change, recount scores
      let lumie' := { lumie with color := step.1, lockedUntil := now + cooldown }
      updateScores
        { setBall s i lumie' with
          playerColors := step.2,
          turnChanges := s.turnChanges ++ [⟨i, prevColor, step.1⟩] }

/- ## Player ball respawn and end-of-roll processing -/

/-- `Game.resetPlayerBall()`. `randAngle`/`randPhase` are the `Math.random()`
samples of the new ball's constructor. -/
noncomputable def resetPlayerBall (randAngle randPhase : ℝ) (s : GameState) :
    GameState :=
  let y := if s.currentPlayer = .one then s.height - 100 else (100 : ℝ)
  { s with playerBall :=
      Ball.make (s.width / 2) y ballRadius .gold false randAngle randPhase }

/-- `Game.endTurn()`: replay decision, turn switch, player-ball respawn,
return to `aiming`. (The toast/badge DOM updates are out of scope.) -/
noncomputable def endTurn (randAngle randPhase : ℝ) (s : GameState) : GameState :=
  let s0 := { s with turnState := .process_turn }
  -- Rule: replay if you gained >= 1 ball of YOUR color AND 0 of OPPONENT color.
  let switchTurn : Bool :=
    match s.playerColors s.currentPlayer with
    | none => true  -- colors not assigned yet, standard switch
    | some myCol =>
      let opponentCol := otherColor myCol
      let gainedMy := s.turnChanges.countP fun c => decide (c.after = myCol)
      let gainedOpponent := s.turnChanges.countP fun c => decide (c.after = opponentCol)
      if gainedMy > 0 ∧ gainedOpponent = 0 then false else true
  let s1 :=
    if switchTurn then { s0 with currentPlayer := s0.currentPlayer.other } else s0
  { resetPlayerBall randAngle randPhase s1 with turnState := .aiming }

/-- `Game.shoot()` (the part reached when the drag is long enough): set the
player ball's velocity from the drag vector, enter `rolling`, clear the change
log, record the roll start time, and unlock expired Lumies. -/
noncomputable def shoot (dragStart dragCurrent : ℝ × ℝ) (now : ℕ) (s : GameState) :
    GameState :=
  let v := (dragCurrent.1 - dragStart.1, dragCurrent.2 - dragStart.2)
  let len := hypot v.1 v.2
  if len < 5 then s  -- ignore small taps
  else
    let power := min (len * dragScale) maxPower
    -- Vec2.norm: zero vector for zero length (unreachable here since len ≥ 5)
    let dir : ℝ × ℝ := if len = 0 then (0, 0) else (v.1 / len, v.2 / len)
    { s with
      playerBall := { s.playerBall with
        vx := dir.1 * power, vy := dir.2 * power, angularVelocity := power * 0.1 },
      turnState := .rolling,
      turnChanges := [],
      turnStartTime := now,
      lumies := s.lumies.map fun l =>
        if l.lockedUntil < now then { l with lockedUntil := 0 } else l }

/- ## Per-tick simulation (`Game.updatePhysics`) -/

/-- All random samples and the timestamp one `updatePhysics` tick consumes:
`flips i` is the coupling-sign sample of ball `i`'s `update()`; `kickA i j` /
`kickB i j` are the two angular-kick samples of the collision of pair
`(i, j)`; `pickA i j` / `pickB i j` are the neutral-pick samples of the
`onHitLumie` calls that collision may fire; `resetAngle`/`resetPhase` feed a
potential `endTurn` respawn. -/
structure TickEnv where
  now : ℕ
  flips : ℕ → Bool
  kickA : ℕ → ℕ → ℝ
  kickB : ℕ → ℕ → ℝ
  pickA : ℕ → ℕ → Bool
  pickB : ℕ → ℕ → Bool
  resetAngle : ℝ
  resetPhase : ℝ

/-- `b.vx = 0; b.vy = 0; b.angularVelocity = 0` — the forced hard stop. -/
def zeroVel (b : Ball) : Ball := { b with vx := 0, vy := 0, angularVelocity := 0 }

/-- The four wall-reflection checks of `updatePhysics`. -/
noncomputable def wallClamp (width height : ℝ) (b : Ball) : Ball :=
  let b := if b.x < b.r then { b with x := b.r, vx := b.vx * (-restitution) } else b
  let b := if b.x > width - b.r then
    { b with x := width - b.r, vx := b.vx * (-restitution) } else b
  let b := if b.y < b.r then { b with y := b.r, vy := b.vy * (-restitution) } else b
  if b.y > height - b.r then
    { b with y := height - b.r, vy := b.vy * (-restitution) } else b

/-- The per-ball body of the `allBalls.forEach` loop: `update()`, forced hard
stop when the 3-second limit is reached, the `moving` test, then walls.
Returns the updated ball and this ball's contribution to `moving` (tested
after the potential hard stop and before the walls, as in the source). -/
noncomputable def ballPhase (timeLimitReached : Bool) (width height : ℝ)
    (flip : Bool) (b : Ball) : Ball × Bool :=
  let b1 := Ball.update flip b
  let b2 := if timeLimitReached then zeroVel b1 else b1
  let mov : Bool := decide (|b2.vx| > 0 ∨ |b2.vy| > 0)
  (wallClamp width height b2, mov)

/-- The body of the pairwise collision loop for combined indices `i < j`:
`resolveCollision(allBalls[i], allBalls[j])` including the `onHitLumie` calls
it may fire. -/
noncomputable def collidePair (env : TickEnv) (i j : ℕ) (s : GameState) : GameState :=
  match getBall s i, getBall s j with
  | some b1, some b2 =>
    let res := resolveCollision (env.kickA i j) (env.kickB i j) b1 b2
    let s1 := setBall (setBall s i res.b1) j res.b2
    let s2 := if res.hit1 then onHitLumie env.now (env.pickA i j) i s1 else s1
    if res.hit2 then onHitLumie env.now (env.pickB i j) j s2 else s2
  | _, _ => s

/-- The ordered list of unordered pairs `(i, j)`, `i < j`, the source's nested
`for` loops visit over `n` balls. -/
def collisionPairs (n : ℕ) : List (ℕ × ℕ) :=
  (List.range n).flatMap fun i =>
    ((List.range n).filter fun j => decide (i < j)).map fun j => (i, j)

/-- `Game.updatePhysics()`: one full physics tick over
`allBalls = [...this.lumies, this.playerBall]` (ball `i < lumies.length` is
Lumie `i`, ball `lumies.length` is the player ball), then the end-of-roll
check. -/
noncomputable def updatePhysics (env : TickEnv) (s : GameState) : GameState :=
  -- 3-SECOND RULE
  let elapsed := env.now - s.turnStartTime
  let timeLimitReached : Bool := decide (elapsed > 3000)
  let n := s.lumies.length
  -- Update positions
  let lres := s.lumies.enum.map fun p =>
    ballPhase timeLimitReached s.width s.height (env.flips p.1) p.2
  let pres := ballPhase timeLimitReached s.width s.height (env.flips n) s.playerBall
  let moving : Bool := (lres.any fun p => p.2) || pres.2
  let s1 := { s with lumies := lres.map fun p => p.1, playerBall := pres.1 }
  -- Collisions
  let s2 := (collisionPairs (n + 1)).foldl (fun st p => collidePair env p.1 p.2 st) s1
  if moving = false then
    if s2.turnState = .rolling then endTurn env.resetAngle env.resetPhase s2 else s2
  else s2

/- ## Non-finite tracking model of the collision resolver

JS numbers are IEEE doubles; `(b1, b2)` with coincident centers makes the
source compute `nx = dx / dist = 0 / 0 = NaN`. To settle the NaN-propagation
claim we re-embed `resolveCollision` over `JsReal := Option ℝ`, where `some x`
is a finite number of value `x` and `none` is any non-finite number (NaN or
±Infinity). The operations below are faithful on the paths this function can
take from all-finite inputs: every arithmetic operation on a non-finite
operand yields a non-finite result (`none`), except division by a non-finite
number — which cannot occur here, since the only divisors are `dist` (a
`Math.hypot` of differences of finite inputs, hence finite) and `m1 + m2` (a
sum of finite inputs); likewise the one `<` comparison only ever sees those
finite values, so the `none < _ = False` clause is never exercised. -/

/-- A JS number: `some x` = finite with value `x`, `none` = non-finite. -/
def JsReal : Type := Option ℝ

/-- Finite literal. -/
def jfin (x : ℝ) : JsReal := some x

def jadd : JsReal → JsReal → JsReal
  | some x, some y => some (x + y)
  | _, _ => none

def jsub : JsReal → JsReal → JsReal
  | some x, some y => some (x - y)
  | _, _ => none

def jmul : JsReal → JsReal → JsReal
  | some x, some y => some (x * y)
  | _, _ => none

/-- JS division: a zero divisor yields `±Infinity` or `NaN`, i.e. non-finite. -/
noncomputable def jdiv : JsReal → JsReal → JsReal
  | some x, some y => if y = 0 then none else some (x / y)
  | _, _ => none

def jneg : JsReal → JsReal
  | some x => some (-x)
  | none => none

def jabs : JsReal → JsReal
  | some x => some |x|
  | none => none

/-- `Math.hypot` (non-finite on any non-finite argument). -/
noncomputable def jhypot : JsReal → JsReal → JsReal
  | some x, some y => some (Real.sqrt (x ^ 2 + y ^ 2))
  | _, _ => none

/-- The `<` comparison on the finite values this embedding exercises it on. -/
def jlt : JsReal → JsReal → Prop
  | some x, some y => x < y
  | _, _ => False

noncomputable instance : ∀ a b : JsReal, Decidable (jlt a b)
  | some x, some y => inferInstanceAs (Decidable (x < y))
  | some _, none => inferInstanceAs (Decidable False)
  | none, _ => inferInstanceAs (Decidable False)

/-- A `Ball` whose numeric fields carry finiteness information. -/
structure JBall where
  x : JsReal
  y : JsReal
  r : JsReal
  mass : JsReal
  vx : JsReal
  vy : JsReal
  angularVelocity : JsReal
  isLumie : Bool

structure JCollisionResult where
  b1 : JBall
  b2 : JBall
  hit1 : Bool
  hit2 : Bool

/-- `Game.resolveCollision(b1, b2)` over the non-finite-tracking numbers;
same structure as `resolveCollision` above. -/
noncomputable def resolveCollisionJS (k1 k2 : ℝ) (b1 b2 : JBall) : JCollisionResult :=
  let dx := jsub b2.x b1.x
  let dy := jsub b2.y b1.y
  let dist := jhypot dx dy
  let minDist := jadd b1.r b2.r
  if jlt dist minDist then
    let overlap := jsub minDist dist
    let nx := jdiv dx dist
    let ny := jdiv dy dist
    let tx := jneg ny
    let ty := nx
    let dpTan1 := jadd (jmul b1.vx tx) (jmul b1.vy ty)
    let dpTan2 := jadd (jmul b2.vx tx) (jmul b2.vy ty)
    let dpNorm1 := jadd (jmul b1.vx nx) (jmul b1.vy ny)
    let dpNorm2 := jadd (jmul b2.vx nx) (jmul b2.vy ny)
    let m1 := b1.mass
    let m2 := b2.mass
    let v1n := jdiv (jadd (jmul dpNorm1 (jsub m1 m2)) (jmul (jmul (jfin 2) m2) dpNorm2))
      (jadd m1 m2)
    let v2n := jdiv (jadd (jmul dpNorm2 (jsub m2 m1)) (jmul (jmul (jfin 2) m1) dpNorm1))
      (jadd m1 m2)
    let impactPower := jabs (jsub dpNorm1 dpNorm2)
    { b1 := { b1 with
        x := jsub b1.x (jmul (jmul nx overlap) (jfin 0.5)),
        y := jsub b1.y (jmul (jmul ny overlap) (jfin 0.5)),
        vx := jadd (jmul tx dpTan1) (jmul nx v1n),
        vy := jadd (jmul ty dpTan1) (jmul ny v1n),
        angularVelocity := jadd b1.angularVelocity (jfin (k1 - 0.5)) },
      b2 := { b2 with
        x := jadd b2.x (jmul (jmul nx overlap) (jfin 0.5)),
        y := jadd b2.y (jmul (jmul ny overlap) (jfin 0.5)),
        vx := jadd (jmul tx dpTan2) (jmul nx v2n),
        vy := jadd (jmul ty dpTan2) (jmul ny v2n),
        angularVelocity := jadd b2.angularVelocity (jfin (k2 - 0.5)) },
      hit1 := if jlt (jfin 0.5) impactPower then b1.isLumie else false,
      hit2 := if jlt (jfin 0.5) impactPower then b2.isLumie else false }
  else
    { b1 := b1, b2 := b2, hit1 := false, hit2 := false }

/- ## Helper lemmas and concrete witness data -/

theorem Player.other_ne (p : Player) : p.other ≠ p := by cases p <;> simp [Player.other]

theorem updateScores_lumies (s : GameState) : (updateScores s).lumies = s.lumies := by
  unfold updateScores gameOver
  dsimp only
  split <;> split <;> rfl

theorem updateScores_turnChanges (s : GameState) :
    (updateScores s).turnChanges = s.turnChanges := by
  unfold updateScores gameOver
  dsimp only
  split <;> split <;> rfl

theorem updateScores_playerBall (s : GameState) :
    (updateScores s).playerBall = s.playerBall := by
  unfold updateScores gameOver
  dsimp only
  split <;> split <;> rfl

theorem updateScores_playerColors (s : GameState) :
    (updateScores s).playerColors = s.playerColors := by
  unfold updateScores gameOver
  dsimp only
  split <;> split <;> rfl

theorem updateScores_currentPlayer (s : GameState) :
    (updateScores s).currentPlayer = s.currentPlayer := by
  unfold updateScores gameOver
  dsimp only
  split <;> split <;> rfl

theorem updateScores_turnState (s : GameState) :
    (updateScores s).turnState = s.turnState := by
  unfold updateScores gameOver
  dsimp only
  split <;> split <;> rfl

theorem getBall_setBall_self (s : GameState) (i : ℕ) (b0 b : Ball)
    (h : getBall s i = some b0) : getBall (setBall s i b) i = some b := by
  by_cases hi : i < s.lumies.length
  · unfold setBall
    rw [if_pos hi]
    unfold getBall
    dsimp only
    rw [if_pos (by simpa using hi)]
    simpa using List.getElem?_set_eq_of_lt b hi
  · unfold setBall
    rw [if_neg hi]
    unfold getBall at h ⊢
    rw [if_neg hi] at h
    dsimp only
    rw [if_neg hi]
    by_cases he : i = s.lumies.length
    · rw [if_pos he]
    · rw [if_neg he] at h
      exact absurd h (by simp)

theorem getBall_congr (s s' : GameState) (i : ℕ)
    (hl : s'.lumies = s.lumies) (hp : s'.playerBall = s.playerBall) :
    getBall s' i = getBall s i := by
  unfold getBall
  rw [hl, hp]

/-- A motionless ball with orientation and heavy phase zero; `mass := r` as in
the `Ball` constructor. -/
def stillBall (x y r : ℝ) (c : Color) (isL : Bool) (lock : ℕ) : Ball :=
  { x := x, y := y, r := r, color := c, vx := 0, vy := 0, mass := r,
    angle := 0, angularVelocity := 0, heavyPhase := 0, isLumie := isL,
    lockedUntil := lock }

/-- A concrete mid-roll game state over the given Lumies. -/
def midRoll (lumies : List Ball) (cp : Player) (pc : Player → Option Color)
    (tc : List Change) : GameState :=
  { width := 800, height := 600, lumies := lumies,
    playerBall := stillBall 400 500 22 .gold false 0,
    currentPlayer := cp, playerColors := pc, turnState := .rolling,
    turnChanges := tc, turnStartTime := 0, gameOverDeclared := none }

theorem setBall_lumies_length (s : GameState) (i : ℕ) (b : Ball) :
    (setBall s i b).lumies.length = s.lumies.length := by
  unfold setBall
  split
  · simp
  · rfl

/-- Accessors of the state `onHitLumie` builds on the conversion path. -/
theorem onHit_post (s : GameState) (i : ℕ) (lumie lumie' : Ball)
    (pc : Player → Option Color) (tc : List Change)
    (hget : getBall s i = some lumie) :
    getBall (updateScores
        { setBall s i lumie' with playerColors := pc, turnChanges := tc }) i =
      some lumie' ∧
    (updateScores
        { setBall s i lumie' with playerColors := pc, turnChanges := tc }).turnChanges =
      tc := by
  constructor
  · rw [getBall_congr _ _ i (updateScores_lumies _) (updateScores_playerBall _)]
    exact getBall_setBall_self s i lumie lumie' hget
  · rw [updateScores_turnChanges]

/- ## Claim theorems -/

/-- **C9**: a conversion attempt (`onHitLumie` call) on a target whose lock
has not yet expired (`Date.now() < lockedUntil`) leaves the whole game state —
in particular the target's color, its lock expiry and the roll's change log —
unchanged, regardless of impact intensity. -/
theorem locked_target_hit_is_noop (now : ℕ) (randPick : Bool) (i : ℕ)
    (s : GameState) (lumie : Ball) (hget : getBall s i = some lumie)
    (hlocked : now < lumie.lockedUntil) :
    onHitLumie now randPick i s = s := by
  unfold onHitLumie
  rw [hget]
  simp [hlocked]

def lockedLumie : Ball := stillBall 100 300 20 .red true 5000

def lockedState : GameState :=
  midRoll [lockedLumie] .one (fun _ => none) []

theorem locked_target_hit_is_noop_witness :
    onHitLumie 1000 true 0 lockedState = lockedState :=
  locked_target_hit_is_noop 1000 true 0 lockedState lockedLumie rfl (by decide)

/-- **C6**: at end-of-roll evaluation, a player with no assigned color always
hands the turn over; a player with assigned color keeps the turn iff the
change log counts at least one conversion to their own color (`gained`) and
none to the opponent's color (`lost`), and in every other case the turn
switches to the other player. -/
theorem end_of_roll_replay_decision (randAngle randPhase : ℝ) (s : GameState) :
    (s.playerColors s.currentPlayer = none →
      (endTurn randAngle randPhase s).currentPlayer = s.currentPlayer.other) ∧
    ∀ myCol, s.playerColors s.currentPlayer = some myCol →
      (((endTurn randAngle randPhase s).currentPlayer = s.currentPlayer) ↔
        (0 < s.turnChanges.countP fun c => decide (c.after = myCol)) ∧
          (s.turnChanges.countP fun c => decide (c.after = otherColor myCol)) = 0) ∧
      (¬((0 < s.turnChanges.countP fun c => decide (c.after = myCol)) ∧
          (s.turnChanges.countP fun c => decide (c.after = otherColor myCol)) = 0) →
        (endTurn randAngle randPhase s).currentPlayer = s.currentPlayer.other) := by
  have hother := Player.other_ne s.currentPlayer
  constructor
  · intro h
    unfold endTurn resetPlayerBall
    rw [h]
    rfl
  · intro myCol h
    by_cases hc :
        (0 < s.turnChanges.countP fun c => decide (c.after = myCol)) ∧
          (s.turnChanges.countP fun c => decide (c.after = otherColor myCol)) = 0
    · have hkeep : (endTurn randAngle randPhase s).currentPlayer = s.currentPlayer := by
        unfold endTurn resetPlayerBall
        rw [h]
        dsimp only
        rw [if_pos hc]
        rfl
      refine ⟨?_, fun hn => absurd hc hn⟩
      rw [hkeep]
      exact iff_of_true rfl hc
    · have hswitch : (endTurn randAngle randPhase s).currentPlayer =
          s.currentPlayer.other := by
        unfold endTurn resetPlayerBall
        rw [h]
        dsimp only
        rw [if_neg hc]
        rfl
      refine ⟨?_, fun _ => hswitch⟩
      rw [hswitch]
      exact iff_of_false hother hc

def replayState : GameState :=
  midRoll [stillBall 100 300 20 .green true 5000] .one
    (fun p => if p = .one then some .green else some .blue)
    [⟨0, .red, .green⟩]

theorem end_of_roll_replay_decision_witness :
    (endTurn 0 0 replayState).currentPlayer = replayState.currentPlayer :=
  (((end_of_roll_replay_decision 0 0 replayState).2 .green rfl).1).mpr (by decide)

/-- **C7**: a conversion on a target whose lock has expired turns a neutral
(red) target green or blue according to the injected `Math.random() > 0.5`
sample (both outcomes attainable), toggles green to blue and blue to green
deterministically, records a lock expiring exactly `cooldown` (4000) ms after
`now`, and appends the `{body, before, after}` record to the roll's change
log. -/
theorem conversion_on_unlocked_target (now : ℕ) (randPick : Bool) (i : ℕ)
    (s : GameState) (lumie : Ball) (hget : getBall s i = some lumie)
    (hunlocked : lumie.lockedUntil ≤ now)
    (hcol : lumie.color = .red ∨ lumie.color = .green ∨ lumie.color = .blue) :
    getBall (onHitLumie now randPick i s) i =
      some { lumie with
        color :=
          if lumie.color = .red then (if randPick then .green else .blue)
          else if lumie.color = .green then .blue else .green,
        lockedUntil := now + cooldown } ∧
    (onHitLumie now randPick i s).turnChanges =
      s.turnChanges ++ [{ ball := i, before := lumie.color,
                          after :=
                            if lumie.color = .red then
                              (if randPick then .green else .blue)
                            else if lumie.color = .green then .blue
                            else .green }] := by
  unfold onHitLumie
  split
  · next heq => rw [hget] at heq; exact Option.noConfusion heq
  next l heq =>
  rw [hget] at heq
  injection heq with heq'
  subst heq'
  rw [if_neg (not_lt.mpr hunlocked)]
  dsimp only
  rcases hcol with hr | hg | hb
  · simp only [hr]
    exact onHit_post s i lumie _ _ _ hget
  · simp only [hg]
    exact onHit_post s i lumie _ _ _ hget
  · simp only [hb]
    exact onHit_post s i lumie _ _ _ hget

def neutralLumie : Ball := stillBall 100 300 20 .red true 0

def neutralState : GameState := midRoll [neutralLumie] .one (fun _ => none) []

theorem conversion_on_unlocked_target_witness :
    getBall (onHitLumie 1000 true 0 neutralState) 0 =
      some { neutralLumie with color := .green, lockedUntil := 1000 + cooldown } ∧
    (onHitLumie 1000 true 0 neutralState).turnChanges =
      [{ ball := 0, before := .red, after := .green }] := by
  have h := conversion_on_unlocked_target 1000 true 0 neutralState neutralLumie
    rfl (by decide) (Or.inl rfl)
  simpa using h

theorem updateScores_declares (X : GameState) (hlen : X.lumies.length = 5) :
    ((X.lumies.countP fun l => decide (l.color = Color.green)) = 5 →
      (updateScores X).gameOverDeclared = some Color.green) ∧
    ((X.lumies.countP fun l => decide (l.color = Color.blue)) = 5 →
      (updateScores X).gameOverDeclared = some Color.blue) := by
  constructor
  · intro hg
    have hb : (X.lumies.countP fun l => decide (l.color = Color.blue)) = 0 := by
      have hall := List.countP_eq_length.mp (by rw [hg, hlen])
      refine List.countP_eq_zero.mpr fun a ha => ?_
      have hag := hall a ha
      simp only [decide_eq_true_eq] at hag ⊢
      rw [hag]
      decide
    unfold updateScores gameOver
    dsimp only
    rw [if_pos hg, if_neg (by rw [hb]; decide)]
  · intro hbl
    unfold updateScores gameOver
    dsimp only
    rw [if_pos hbl]

/-- **C3** (amended): whenever a conversion (`onHitLumie` on an unlocked
target among the five) makes a color's recount over the target bodies reach
5, `gameOver` is invoked immediately, during that conversion, in that color's
favor. (The original claim's second half — that no further turn processing
occurs — is refuted by `match_not_halted_counterexample`: `gameOver` only
builds the DOM overlay and the turn state machine keeps running.) -/
theorem win_declared_immediately_on_five (now : ℕ) (randPick : Bool) (i : ℕ)
    (s : GameState) (lumie : Ball) (hget : getBall s i = some lumie)
    (hunlocked : lumie.lockedUntil ≤ now) (hlen : s.lumies.length = 5) :
    (((onHitLumie now randPick i s).lumies.countP
        fun l => decide (l.color = Color.green)) = 5 →
      (onHitLumie now randPick i s).gameOverDeclared = some Color.green) ∧
    (((onHitLumie now randPick i s).lumies.countP
        fun l => decide (l.color = Color.blue)) = 5 →
      (onHitLumie now randPick i s).gameOverDeclared = some Color.blue) := by
  unfold onHitLumie
  split
  · next heq => rw [hget] at heq; exact Option.noConfusion heq
  next l heq =>
  rw [hget] at heq
  injection heq with heq'
  subst heq'
  rw [if_neg (not_lt.mpr hunlocked)]
  dsimp only
  rw [updateScores_lumies]
  exact updateScores_declares _ ((setBall_lumies_length s i _).trans hlen)

/-- Four green targets, one unlocked blue target; the acting player 2 plays
blue. Converting the blue target to green ends the match for green. -/
def fourGreenState : GameState :=
  midRoll [stillBall 100 300 20 .green true 0, stillBall 170 300 20 .green true 0,
    stillBall 240 300 20 .green true 0, stillBall 310 300 20 .green true 0,
    stillBall 380 300 20 .blue true 0] .two
    (fun p => if p = .one then some .green else some .blue) []

theorem win_declared_immediately_on_five_witness :
    (onHitLumie 1000 true 4 fourGreenState).gameOverDeclared = some Color.green :=
  (win_declared_immediately_on_five 1000 true 4 fourGreenState
    (stillBall 380 300 20 .blue true 0) rfl (by decide) rfl).1 (by rfl)

/-- **C3** (counterexample): the winning conversion declares green's victory,
yet the subsequent end-of-roll processing still runs and switches the turn
from player 2 to player 1 — the claim's "no turn change occurs" is false of
the code (the turn state machine is never halted). -/
theorem match_not_halted_counterexample :
    (onHitLumie 1000 true 4 fourGreenState).gameOverDeclared = some Color.green ∧
    fourGreenState.currentPlayer = Player.two ∧
    (endTurn 0 0 (onHitLumie 1000 true 4 fourGreenState)).currentPlayer =
      Player.one := by
  exact ⟨rfl, rfl, rfl⟩

/- ## Permanence of the color assignment -/

theorem setBall_playerColors (s : GameState) (i : ℕ) (b : Ball) :
    (setBall s i b).playerColors = s.playerColors := by
  unfold setBall
  split <;> rfl

/-- Once any player color is assigned, `onHitLumie` never writes
`playerColors` again (the first-blood guard requires both to be `null`). -/
theorem onHitLumie_playerColors_of_assigned (now : ℕ) (r : Bool) (i : ℕ)
    (t : GameState)
    (hne : ¬(t.playerColors .one = none ∧ t.playerColors .two = none)) :
    (onHitLumie now r i t).playerColors = t.playerColors := by
  unfold onHitLumie
  split
  · rfl
  next l _ =>
  split
  · rfl
  · dsimp only
    rw [updateScores_playerColors]
    dsimp only
    split
    · rfl
    · split
      · rfl
      · split <;> rfl

theorem endTurn_playerColors (a p : ℝ) (s : GameState) :
    (endTurn a p s).playerColors = s.playerColors := by
  unfold endTurn resetPlayerBall
  dsimp only
  split <;> rfl

theorem shoot_playerColors (d1 d2 : ℝ × ℝ) (now : ℕ) (s : GameState) :
    (shoot d1 d2 now s).playerColors = s.playerColors := by
  unfold shoot
  dsimp only
  split <;> rfl

theorem collidePair_playerColors (env : TickEnv) (i j : ℕ) (t : GameState)
    (hne : ¬(t.playerColors .one = none ∧ t.playerColors .two = none)) :
    (collidePair env i j t).playerColors = t.playerColors := by
  unfold collidePair
  split
  next b1 b2 _ _ =>
    dsimp only
    generalize resolveCollision (env.kickA i j) (env.kickB i j) b1 b2 = R
    generalize hS1 : setBall (setBall t i R.b1) j R.b2 = S1
    have h1 : S1.playerColors = t.playerColors := by
      rw [← hS1, setBall_playerColors, setBall_playerColors]
    have h2 : (if R.hit1 = true then onHitLumie env.now (env.pickA i j) i S1
        else S1).playerColors = t.playerColors := by
      split
      · rw [onHitLumie_playerColors_of_assigned env.now (env.pickA i j) i S1
          (by rw [h1]; exact hne), h1]
      · exact h1
    generalize hS2 : (if R.hit1 = true then onHitLumie env.now (env.pickA i j) i S1
        else S1) = S2 at h2
    split
    · rw [onHitLumie_playerColors_of_assigned env.now (env.pickB i j) j S2
        (by rw [h2]; exact hne), h2]
    · exact h2
  next => rfl

theorem foldl_preserve {α : Type} (P : GameState → Prop) (f : GameState → α → GameState)
    (hf : ∀ t a, P t → P (f t a)) :
    ∀ (l : List α) (t : GameState), P t → P (l.foldl f t) := by
  intro l
  induction l with
  | nil => exact fun t h => h
  | cons a l ih => exact fun t h => ih _ (hf t a h)

theorem updatePhysics_playerColors (env : TickEnv) (s : GameState)
    (hne : ¬(s.playerColors .one = none ∧ s.playerColors .two = none)) :
    (updatePhysics env s).playerColors = s.playerColors := by
  unfold updatePhysics
  dsimp only
  have hfold : ∀ t0 : GameState, t0.playerColors = s.playerColors →
      (List.foldl (fun st p => collidePair env p.1 p.2 st) t0
        (collisionPairs (s.lumies.length + 1))).playerColors = s.playerColors := by
    intro t0 h0
    refine foldl_preserve (fun t => t.playerColors = s.playerColors) _ ?_ _ t0 h0
    intro t p hp
    have hp' : t.playerColors = s.playerColors := hp
    show (collidePair env p.1 p.2 t).playerColors = s.playerColors
    rw [collidePair_playerColors env p.1 p.2 t (by rw [hp']; exact hne), hp']
  split
  · split
    · rw [endTurn_playerColors]
      exact hfold _ rfl
    · exact hfold _ rfl
  · exact hfold _ rfl

/-- The game-logic operations a state can undergo after a roll has started;
used to express that a fact persists for the rest of the match. -/
inductive GEvent where
  | hit (now : ℕ) (randPick : Bool) (i : ℕ)
  | turnEnd (randAngle randPhase : ℝ)
  | tick (env : TickEnv)
  | shootAt (dragStart dragCurrent : ℝ × ℝ) (now : ℕ)
  | rescore

noncomputable def applyEvent (s : GameState) (e : GEvent) : GameState :=
  match e with
  | .hit now r i => onHitLumie now r i s
  | .turnEnd a p => endTurn a p s
  | .tick env => updatePhysics env s
  | .shootAt d1 d2 now => shoot d1 d2 now s
  | .rescore => updateScores s

noncomputable def applyEvents (es : List GEvent) (s : GameState) : GameState :=
  es.foldl applyEvent s

theorem applyEvent_playerColors (s : GameState) (e : GEvent)
    (hne : ¬(s.playerColors .one = none ∧ s.playerColors .two = none)) :
    (applyEvent s e).playerColors = s.playerColors := by
  cases e with
  | hit now r i => exact onHitLumie_playerColors_of_assigned now r i s hne
  | turnEnd a p => exact endTurn_playerColors a p s
  | tick env => exact updatePhysics_playerColors env s hne
  | shootAt d1 d2 now => exact shoot_playerColors d1 d2 now s
  | rescore => exact updateScores_playerColors s

theorem applyEvents_playerColors (es : List GEvent) (s : GameState)
    (hne : ¬(s.playerColors .one = none ∧ s.playerColors .two = none)) :
    (applyEvents es s).playerColors = s.playerColors := by
  unfold applyEvents
  refine foldl_preserve (fun t => t.playerColors = s.playerColors) applyEvent
    ?_ es s rfl
  intro t e hp
  have hp' : t.playerColors = s.playerColors := hp
  show (applyEvent t e).playerColors = s.playerColors
  rw [applyEvent_playerColors t e (by rw [hp']; exact hne), hp']

/-- **C8**: on the very first conversion of the match (both players still
unassigned; necessarily a neutral target, since any green/blue target implies
an earlier conversion), the acting player is assigned the color the target
just became and the opponent the other color, and no later game operation
ever writes `playerColors` again. -/
theorem first_blood_assigns_colors_permanently (now : ℕ) (randPick : Bool)
    (i : ℕ) (s : GameState) (lumie : Ball) (hget : getBall s i = some lumie)
    (hunlocked : lumie.lockedUntil ≤ now) (hred : lumie.color = .red)
    (h1 : s.playerColors .one = none) (h2 : s.playerColors .two = none) :
    ((onHitLumie now randPick i s).playerColors s.currentPlayer =
      some (if randPick then Color.green else Color.blue)) ∧
    ((onHitLumie now randPick i s).playerColors s.currentPlayer.other =
      some (otherColor (if randPick then Color.green else Color.blue))) ∧
    (getBall (onHitLumie now randPick i s) i =
      some { lumie with color := if randPick then Color.green else Color.blue,
                        lockedUntil := now + cooldown }) ∧
    ∀ es : List GEvent,
      (applyEvents es (onHitLumie now randPick i s)).playerColors =
        (onHitLumie now randPick i s).playerColors := by
  have key : (onHitLumie now randPick i s).playerColors = fun p =>
      if p = s.currentPlayer then some (if randPick then Color.green else Color.blue)
      else if p = s.currentPlayer.other then
        some (otherColor (if randPick then Color.green else Color.blue))
      else s.playerColors p := by
    unfold onHitLumie
    split
    · next heq => rw [hget] at heq; exact Option.noConfusion heq
    next l heq =>
    rw [hget] at heq
    injection heq with heq'
    subst heq'
    rw [if_neg (not_lt.mpr hunlocked)]
    dsimp only
    rw [updateScores_playerColors]
    simp only [hred]
    have hguard : s.playerColors Player.one = none ∧ s.playerColors Player.two = none :=
      ⟨h1, h2⟩
    rw [if_pos hguard]
    simp only [if_true]
  refine ⟨?_, ?_, ?_, ?_⟩
  · rw [key]
    dsimp only
    rw [if_pos rfl]
  · rw [key]
    dsimp only
    rw [if_neg (Player.other_ne s.currentPlayer), if_pos rfl]
  · unfold onHitLumie
    split
    · next heq => rw [hget] at heq; exact Option.noConfusion heq
    next l heq =>
    rw [hget] at heq
    injection heq with heq'
    subst heq'
    rw [if_neg (not_lt.mpr hunlocked)]
    dsimp only
    simp only [hred]
    exact (onHit_post s i lumie _ _ _ hget).1
  · intro es
    refine applyEvents_playerColors es _ ?_
    rw [key]
    dsimp only
    intro hcontra
    obtain ⟨ha, hb⟩ := hcontra
    cases hcp : s.currentPlayer
    · rw [hcp] at ha
      simp at ha
    · rw [hcp] at hb
      simp [Player.other] at hb

theorem first_blood_assigns_colors_permanently_witness :
    (onHitLumie 500 true 0 neutralState).playerColors .one = some Color.green ∧
    (onHitLumie 500 true 0 neutralState).playerColors .two = some Color.blue ∧
    (applyEvents [GEvent.turnEnd 0 0]
        (onHitLumie 500 true 0 neutralState)).playerColors =
      (onHitLumie 500 true 0 neutralState).playerColors := by
  have h := first_blood_assigns_colors_permanently 500 true 0 neutralState
    neutralLumie rfl (by decide) rfl rfl rfl
  exact ⟨h.1, h.2.1, h.2.2.2 [GEvent.turnEnd 0 0]⟩

/- ## Arithmetic facts about `hypot` -/

theorem hypot_nonneg (x y : ℝ) : 0 ≤ hypot x y := Real.sqrt_nonneg _

theorem hypot_zero : hypot 0 0 = 0 := by
  unfold hypot
  rw [show (0 : ℝ) ^ 2 + 0 ^ 2 = 0 by ring, Real.sqrt_zero]

theorem hypot_of_nonneg_left (x : ℝ) (hx : 0 ≤ x) : hypot x 0 = x := by
  unfold hypot
  rw [show x ^ 2 + (0 : ℝ) ^ 2 = x ^ 2 by ring, Real.sqrt_sq hx]

theorem hypot_mul_nonneg (x y c : ℝ) (hc : 0 ≤ c) :
    hypot (x * c) (y * c) = hypot x y * c := by
  unfold hypot
  rw [show (x * c) ^ 2 + (y * c) ^ 2 = (x ^ 2 + y ^ 2) * c ^ 2 by ring,
    Real.sqrt_mul (by positivity) (c ^ 2), Real.sqrt_sq hc]

/- ## C2: friction and the stop threshold -/

/-- **C2** (amended): for a non-Lumie body, `update()` strictly decreases the
linear speed whenever it is above the stop threshold; for every body, if the
post-friction speed is below the stop threshold then `update()` zeroes the
linear and angular velocity exactly. (For a moving Lumie the claim's strict
decrease is false: the wobble impulse can increase speed, see
`friction_not_decreasing_counterexample`.) -/
theorem friction_decreases_speed_and_snaps_to_rest (flip : Bool) (b : Ball) :
    (b.isLumie = false → stopThreshold < b.speed →
      (Ball.update flip b).speed < b.speed) ∧
    (hypot (b.vx * friction) (b.vy * friction) < stopThreshold →
      (Ball.update flip b).vx = 0 ∧ (Ball.update flip b).vy = 0 ∧
        (Ball.update flip b).angularVelocity = 0) := by
  constructor
  · intro hL hsp
    have hspeed0 : 0 < b.speed := lt_trans (by norm_num [stopThreshold]) hsp
    have hcond : ¬(b.isLumie = true ∧
        hypot (b.vx * friction) (b.vy * friction) > 0.1) := by
      rintro ⟨h, -⟩
      rw [hL] at h
      cases h
    unfold Ball.update
    dsimp only
    rw [if_neg hcond]
    split
    · show hypot 0 0 < b.speed
      rw [hypot_zero]
      exact hspeed0
    · show hypot (b.vx * friction) (b.vy * friction) < b.speed
      rw [hypot_mul_nonneg _ _ _ (by norm_num [friction])]
      exact mul_lt_of_lt_one_right hspeed0 (by norm_num [friction])
  · intro hsp
    unfold Ball.update
    dsimp only
    rw [if_pos hsp]
    exact ⟨rfl, rfl, rfl⟩

/-- A Lumie rolling along the x-axis with its heavy spot dead ahead. -/
def movingLumie : Ball :=
  { x := 0, y := 0, r := 20, color := .red, vx := 1, vy := 0, mass := 20,
    angle := 0, angularVelocity := 0, heavyPhase := 0, isLumie := true,
    lockedUntil := 0 }

/-- **C2** (counterexample): this Lumie's speed is 1, above the stop
threshold, yet one `update()` raises it to 1.09 — the wobble impulse
(0.15 along the heavy angle) outweighs the friction loss (0.06), so speed
does not strictly decrease each tick. -/
theorem friction_not_decreasing_counterexample :
    stopThreshold < movingLumie.speed ∧
    movingLumie.speed < (Ball.update true movingLumie).speed := by
  have hs : movingLumie.speed = 1 := hypot_of_nonneg_left 1 (by norm_num)
  have hfr : (1 : ℝ) * friction = 0.94 := by norm_num [friction]
  have hfr0 : (0 : ℝ) * friction = 0 := by ring
  have hpost : hypot ((1 : ℝ) * friction) ((0 : ℝ) * friction) = 0.94 := by
    rw [hfr, hfr0]
    exact hypot_of_nonneg_left _ (by norm_num)
  constructor
  · rw [hs]
    norm_num [stopThreshold]
  · rw [hs]
    have hupd : (Ball.update true movingLumie).speed = 1.09 := by
      have hwob : (true = true) ∧
          hypot ((1 : ℝ) * friction) ((0 : ℝ) * friction) > 0.1 :=
        ⟨rfl, by rw [hpost]; norm_num⟩
      have hstop : ¬(hypot ((1 : ℝ) * friction) ((0 : ℝ) * friction) <
          stopThreshold) := by
        rw [hpost]
        norm_num [stopThreshold]
      unfold Ball.update movingLumie
      dsimp only
      rw [if_neg hstop, if_pos hwob]
      show hypot (1 * friction + Real.cos (0 + 0 + 0) * wobbleStrength)
        (0 * friction + Real.sin (0 + 0 + 0) * wobbleStrength) = 1.09
      rw [show (0 : ℝ) + 0 + 0 = 0 by ring, Real.cos_zero, Real.sin_zero, hfr, hfr0]
      rw [show (0.94 : ℝ) + 1 * wobbleStrength = 1.09 by norm_num [wobbleStrength],
        show (0 : ℝ) + 0 * wobbleStrength = 0 by ring]
      exact hypot_of_nonneg_left _ (by norm_num)
    rw [hupd]
    norm_num

def slowLumie : Ball := { movingLumie with vx := 0.01 }

def goldBall : Ball :=
  { x := 0, y := 0, r := 22, color := .gold, vx := 1, vy := 0, mass := 22,
    angle := 0, angularVelocity := 0, heavyPhase := 0, isLumie := false,
    lockedUntil := 0 }

theorem friction_decreases_speed_and_snaps_to_rest_witness :
    (Ball.update true goldBall).speed < goldBall.speed ∧
    ((Ball.update true slowLumie).vx = 0 ∧ (Ball.update true slowLumie).vy = 0 ∧
      (Ball.update true slowLumie).angularVelocity = 0) := by
  constructor
  · refine (friction_decreases_speed_and_snaps_to_rest true goldBall).1 rfl ?_
    have hs : goldBall.speed = 1 := hypot_of_nonneg_left 1 (by norm_num)
    rw [hs]
    norm_num [stopThreshold]
  · refine (friction_decreases_speed_and_snaps_to_rest true slowLumie).2 ?_
    show hypot ((0.01 : ℝ) * friction) ((0 : ℝ) * friction) < stopThreshold
    rw [show (0.01 : ℝ) * friction = 0.0094 by norm_num [friction],
      show (0 : ℝ) * friction = 0 by ring,
      hypot_of_nonneg_left _ (by norm_num)]
    norm_num [stopThreshold]

theorem hypot_mul (x y c : ℝ) : hypot (x * c) (y * c) = hypot x y * |c| := by
  unfold hypot
  rw [show (x * c) ^ 2 + (y * c) ^ 2 = (x ^ 2 + y ^ 2) * c ^ 2 by ring,
    Real.sqrt_mul (by positivity) (c ^ 2), Real.sqrt_sq_eq_abs]

/- ## C4: momentum conservation along the contact normal -/

/-- **C4**: for overlapping bodies with positive masses and nonzero center
distance, one `resolveCollision` call conserves `mass * normalVelocity`
summed over the pair (exactly, in real arithmetic) and leaves both bodies'
tangential velocity components unchanged. -/
theorem collision_conserves_normal_momentum (k1 k2 : ℝ) (b1 b2 : Ball)
    (hov : hypot (b2.x - b1.x) (b2.y - b1.y) < b1.r + b2.r)
    (hd : hypot (b2.x - b1.x) (b2.y - b1.y) ≠ 0)
    (hm1 : 0 < b1.mass) (hm2 : 0 < b2.mass) :
    b1.mass * normalVel b1 b2 (resolveCollision k1 k2 b1 b2).b1 +
        b2.mass * normalVel b1 b2 (resolveCollision k1 k2 b1 b2).b2 =
      b1.mass * normalVel b1 b2 b1 + b2.mass * normalVel b1 b2 b2 ∧
    tangentVel b1 b2 (resolveCollision k1 k2 b1 b2).b1 = tangentVel b1 b2 b1 ∧
    tangentVel b1 b2 (resolveCollision k1 k2 b1 b2).b2 = tangentVel b1 b2 b2 := by
  have hD2 : hypot (b2.x - b1.x) (b2.y - b1.y) ^ 2 =
      (b2.x - b1.x) ^ 2 + (b2.y - b1.y) ^ 2 := by
    unfold hypot
    exact Real.sq_sqrt (by positivity)
  have hm12 : b1.mass + b2.mass ≠ 0 := ne_of_gt (add_pos hm1 hm2)
  unfold resolveCollision normalVel tangentVel contactNormal
  dsimp only
  rw [if_pos hov]
  dsimp only
  have hn : ((b2.x - b1.x) / hypot (b2.x - b1.x) (b2.y - b1.y)) ^ 2 +
      ((b2.y - b1.y) / hypot (b2.x - b1.x) (b2.y - b1.y)) ^ 2 = 1 := by
    field_simp
    linear_combination (-1 : ℝ) * hD2
  generalize hnx : (b2.x - b1.x) / hypot (b2.x - b1.x) (b2.y - b1.y) = nx at hn ⊢
  generalize hny : (b2.y - b1.y) / hypot (b2.x - b1.x) (b2.y - b1.y) = ny at hn ⊢
  have dotn : ∀ t v : ℝ, ((-ny) * t + nx * v) * nx + (nx * t + ny * v) * ny = v := by
    intro t v
    linear_combination v * hn
  have dott : ∀ t v : ℝ, ((-ny) * t + nx * v) * (-ny) + (nx * t + ny * v) * nx = t := by
    intro t v
    linear_combination t * hn
  refine ⟨?_, ?_, ?_⟩
  · rw [dotn, dotn]
    field_simp
    ring
  · rw [dott]
  · rw [dott]

/-- A moving ball overlapping `cb2`: centers 5 apart, radii summing to 10. -/
def cb1 : Ball :=
  { x := 0, y := 0, r := 5, color := .gold, vx := 1, vy := 0, mass := 5,
    angle := 0, angularVelocity := 0, heavyPhase := 0, isLumie := false,
    lockedUntil := 0 }

def cb2 : Ball :=
  { x := 3, y := 4, r := 5, color := .red, vx := 0, vy := 0, mass := 5,
    angle := 0, angularVelocity := 0, heavyPhase := 0, isLumie := true,
    lockedUntil := 0 }

theorem cb_dist : hypot (cb2.x - cb1.x) (cb2.y - cb1.y) = 5 := by
  show hypot ((3 : ℝ) - 0) ((4 : ℝ) - 0) = 5
  rw [show ((3 : ℝ) - 0) = 3 by norm_num, show ((4 : ℝ) - 0) = 4 by norm_num]
  unfold hypot
  rw [show (3 : ℝ) ^ 2 + 4 ^ 2 = 5 ^ 2 by norm_num, Real.sqrt_sq (by norm_num)]

theorem cb_overlap : hypot (cb2.x - cb1.x) (cb2.y - cb1.y) < cb1.r + cb2.r := by
  rw [cb_dist]
  show (5 : ℝ) < 5 + 5
  norm_num

theorem cb_dist_ne : hypot (cb2.x - cb1.x) (cb2.y - cb1.y) ≠ 0 := by
  rw [cb_dist]
  norm_num

theorem collision_conserves_normal_momentum_witness :
    cb1.mass * normalVel cb1 cb2 (resolveCollision 0 0 cb1 cb2).b1 +
        cb2.mass * normalVel cb1 cb2 (resolveCollision 0 0 cb1 cb2).b2 =
      cb1.mass * normalVel cb1 cb2 cb1 + cb2.mass * normalVel cb1 cb2 cb2 ∧
    tangentVel cb1 cb2 (resolveCollision 0 0 cb1 cb2).b1 = tangentVel cb1 cb2 cb1 ∧
    tangentVel cb1 cb2 (resolveCollision 0 0 cb1 cb2).b2 = tangentVel cb1 cb2 cb2 :=
  collision_conserves_normal_momentum 0 0 cb1 cb2 cb_overlap cb_dist_ne
    (by show (0 : ℝ) < 5; norm_num) (by show (0 : ℝ) < 5; norm_num)

/- ## C5: separation to exactly touching -/

/-- **C5**: for bodies that initially overlap with nonzero center distance,
one `resolveCollision` call moves each body by half the overlap
(`(r1 + r2 - dist) * 0.5`) along the contact normal, after which the center
distance equals exactly the sum of the radii. -/
theorem collision_separates_to_touching (k1 k2 : ℝ) (b1 b2 : Ball)
    (hov : hypot (b2.x - b1.x) (b2.y - b1.y) < b1.r + b2.r)
    (hd : hypot (b2.x - b1.x) (b2.y - b1.y) ≠ 0) :
    hypot ((resolveCollision k1 k2 b1 b2).b2.x - (resolveCollision k1 k2 b1 b2).b1.x)
        ((resolveCollision k1 k2 b1 b2).b2.y - (resolveCollision k1 k2 b1 b2).b1.y) =
      b1.r + b2.r ∧
    hypot ((resolveCollision k1 k2 b1 b2).b1.x - b1.x)
        ((resolveCollision k1 k2 b1 b2).b1.y - b1.y) =
      (b1.r + b2.r - hypot (b2.x - b1.x) (b2.y - b1.y)) * 0.5 ∧
    hypot ((resolveCollision k1 k2 b1 b2).b2.x - b2.x)
        ((resolveCollision k1 k2 b1 b2).b2.y - b2.y) =
      (b1.r + b2.r - hypot (b2.x - b1.x) (b2.y - b1.y)) * 0.5 := by
  have hDnn : 0 ≤ hypot (b2.x - b1.x) (b2.y - b1.y) := hypot_nonneg _ _
  have hDpos : 0 < hypot (b2.x - b1.x) (b2.y - b1.y) :=
    lt_of_le_of_ne hDnn (Ne.symm hd)
  have hR : (0 : ℝ) < b1.r + b2.r := lt_of_le_of_lt hDnn hov
  have hOv : (0 : ℝ) ≤ b1.r + b2.r - hypot (b2.x - b1.x) (b2.y - b1.y) :=
    sub_nonneg.mpr (le_of_lt hov)
  unfold resolveCollision
  dsimp only
  rw [if_pos hov]
  dsimp only
  refine ⟨?_, ?_, ?_⟩
  · rw [show (b2.x + (b2.x - b1.x) / hypot (b2.x - b1.x) (b2.y - b1.y) *
        (b1.r + b2.r - hypot (b2.x - b1.x) (b2.y - b1.y)) * 0.5) -
        (b1.x - (b2.x - b1.x) / hypot (b2.x - b1.x) (b2.y - b1.y) *
        (b1.r + b2.r - hypot (b2.x - b1.x) (b2.y - b1.y)) * 0.5) =
        (b2.x - b1.x) * ((b1.r + b2.r) / hypot (b2.x - b1.x) (b2.y - b1.y))
        by field_simp; ring]
    rw [show (b2.y + (b2.y - b1.y) / hypot (b2.x - b1.x) (b2.y - b1.y) *
        (b1.r + b2.r - hypot (b2.x - b1.x) (b2.y - b1.y)) * 0.5) -
        (b1.y - (b2.y - b1.y) / hypot (b2.x - b1.x) (b2.y - b1.y) *
        (b1.r + b2.r - hypot (b2.x - b1.x) (b2.y - b1.y)) * 0.5) =
        (b2.y - b1.y) * ((b1.r + b2.r) / hypot (b2.x - b1.x) (b2.y - b1.y))
        by field_simp; ring]
    rw [hypot_mul_nonneg _ _ _ (le_of_lt (div_pos hR hDpos))]
    field_simp
  · rw [show (b1.x - (b2.x - b1.x) / hypot (b2.x - b1.x) (b2.y - b1.y) *
        (b1.r + b2.r - hypot (b2.x - b1.x) (b2.y - b1.y)) * 0.5) - b1.x =
        (b2.x - b1.x) * (-((b1.r + b2.r - hypot (b2.x - b1.x) (b2.y - b1.y)) *
          0.5 / hypot (b2.x - b1.x) (b2.y - b1.y)))
        by field_simp; ring]
    rw [show (b1.y - (b2.y - b1.y) / hypot (b2.x - b1.x) (b2.y - b1.y) *
        (b1.r + b2.r - hypot (b2.x - b1.x) (b2.y - b1.y)) * 0.5) - b1.y =
        (b2.y - b1.y) * (-((b1.r + b2.r - hypot (b2.x - b1.x) (b2.y - b1.y)) *
          0.5 / hypot (b2.x - b1.x) (b2.y - b1.y)))
        by field_simp; ring]
    rw [hypot_mul, abs_neg,
      abs_of_nonneg (div_nonneg (mul_nonneg hOv (by norm_num)) hDnn)]
    field_simp
  · rw [show (b2.x + (b2.x - b1.x) / hypot (b2.x - b1.x) (b2.y - b1.y) *
        (b1.r + b2.r - hypot (b2.x - b1.x) (b2.y - b1.y)) * 0.5) - b2.x =
        (b2.x - b1.x) * ((b1.r + b2.r - hypot (b2.x - b1.x) (b2.y - b1.y)) *
          0.5 / hypot (b2.x - b1.x) (b2.y - b1.y))
        by field_simp; ring]
    rw [show (b2.y + (b2.y - b1.y) / hypot (b2.x - b1.x) (b2.y - b1.y) *
        (b1.r + b2.r - hypot (b2.x - b1.x) (b2.y - b1.y)) * 0.5) - b2.y =
        (b2.y - b1.y) * ((b1.r + b2.r - hypot (b2.x - b1.x) (b2.y - b1.y)) *
          0.5 / hypot (b2.x - b1.x) (b2.y - b1.y))
        by field_simp; ring]
    rw [hypot_mul_nonneg _ _ _ (div_nonneg (mul_nonneg hOv (by norm_num)) hDnn)]
    field_simp

theorem collision_separates_to_touching_witness :
    hypot ((resolveCollision 0 0 cb1 cb2).b2.x - (resolveCollision 0 0 cb1 cb2).b1.x)
        ((resolveCollision 0 0 cb1 cb2).b2.y - (resolveCollision 0 0 cb1 cb2).b1.y) =
      cb1.r + cb2.r ∧
    hypot ((resolveCollision 0 0 cb1 cb2).b1.x - cb1.x)
        ((resolveCollision 0 0 cb1 cb2).b1.y - cb1.y) =
      (cb1.r + cb2.r - hypot (cb2.x - cb1.x) (cb2.y - cb1.y)) * 0.5 ∧
    hypot ((resolveCollision 0 0 cb1 cb2).b2.x - cb2.x)
        ((resolveCollision 0 0 cb1 cb2).b2.y - cb2.y) =
      (cb1.r + cb2.r - hypot (cb2.x - cb1.x) (cb2.y - cb1.y)) * 0.5 :=
  collision_separates_to_touching 0 0 cb1 cb2 cb_overlap cb_dist_ne

/- ## C10: the 3-second rule -/

/-- Every body of the state (Lumies and player ball) has zero linear
velocity. -/
def AllStopped (s : GameState) : Prop :=
  (∀ b ∈ s.lumies, b.vx = 0 ∧ b.vy = 0) ∧ s.playerBall.vx = 0 ∧ s.playerBall.vy = 0

theorem allStopped_getBall {s : GameState} (h : AllStopped s) {i : ℕ} {b : Ball}
    (hb : getBall s i = some b) : b.vx = 0 ∧ b.vy = 0 := by
  unfold getBall at hb
  split at hb
  · exact h.1 b (List.get?_mem hb)
  · split at hb
    · cases hb
      exact h.2
    · cases hb

theorem setBall_allStopped {s : GameState} (i : ℕ) {b : Ball} (h : AllStopped s)
    (hb : b.vx = 0 ∧ b.vy = 0) : AllStopped (setBall s i b) := by
  unfold setBall
  split
  · refine ⟨fun c hc => ?_, h.2⟩
    rcases List.mem_or_eq_of_mem_set hc with hc' | hc'
    · exact h.1 c hc'
    · rw [hc']
      exact hb
  · exact ⟨h.1, hb⟩

theorem updateScores_allStopped {s : GameState} (h : AllStopped s) :
    AllStopped (updateScores s) := by
  unfold AllStopped at *
  rw [updateScores_lumies, updateScores_playerBall]
  exact h

theorem onHitLumie_allStopped (now : ℕ) (r : Bool) (i : ℕ) {s : GameState}
    (h : AllStopped s) : AllStopped (onHitLumie now r i s) := by
  unfold onHitLumie
  split
  · exact h
  next l heq =>
  split
  · exact h
  · dsimp only
    refine updateScores_allStopped ?_
    have hl := allStopped_getBall h heq
    exact setBall_allStopped i h ⟨hl.1, hl.2⟩

theorem resolveCollision_zero_vel (k1 k2 : ℝ) (b1 b2 : Ball)
    (h1x : b1.vx = 0) (h1y : b1.vy = 0) (h2x : b2.vx = 0) (h2y : b2.vy = 0) :
    ((resolveCollision k1 k2 b1 b2).b1.vx = 0 ∧
      (resolveCollision k1 k2 b1 b2).b1.vy = 0) ∧
    (resolveCollision k1 k2 b1 b2).b2.vx = 0 ∧
      (resolveCollision k1 k2 b1 b2).b2.vy = 0 := by
  unfold resolveCollision
  dsimp only
  split
  · dsimp only
    simp [h1x, h1y, h2x, h2y]
  · exact ⟨⟨h1x, h1y⟩, h2x, h2y⟩

theorem collidePair_allStopped (env : TickEnv) (i j : ℕ) {s : GameState}
    (h : AllStopped s) : AllStopped (collidePair env i j s) := by
  unfold collidePair
  split
  next b1 b2 hb1 hb2 =>
    dsimp only
    have h1 := allStopped_getBall h hb1
    have h2 := allStopped_getBall h hb2
    have hres := resolveCollision_zero_vel (env.kickA i j) (env.kickB i j) b1 b2
      h1.1 h1.2 h2.1 h2.2
    have hs1 : AllStopped (setBall (setBall s i
        (resolveCollision (env.kickA i j) (env.kickB i j) b1 b2).b1) j
        (resolveCollision (env.kickA i j) (env.kickB i j) b1 b2).b2) :=
      setBall_allStopped j (setBall_allStopped i h hres.1) hres.2
    have hs2 : AllStopped (if (resolveCollision (env.kickA i j) (env.kickB i j)
        b1 b2).hit1 = true then
          onHitLumie env.now (env.pickA i j) i (setBall (setBall s i
            (resolveCollision (env.kickA i j) (env.kickB i j) b1 b2).b1) j
            (resolveCollision (env.kickA i j) (env.kickB i j) b1 b2).b2)
        else setBall (setBall s i
          (resolveCollision (env.kickA i j) (env.kickB i j) b1 b2).b1) j
          (resolveCollision (env.kickA i j) (env.kickB i j) b1 b2).b2) := by
      split
      · exact onHitLumie_allStopped _ _ _ hs1
      · exact hs1
    split
    · exact onHitLumie_allStopped _ _ _ hs2
    · exact hs2
  next => exact h

theorem wallClamp_zeroVel (w h : ℝ) (b : Ball) (hx : b.vx = 0) (hy : b.vy = 0) :
    (wallClamp w h b).vx = 0 ∧ (wallClamp w h b).vy = 0 ∧
      (wallClamp w h b).angularVelocity = b.angularVelocity := by
  unfold wallClamp
  dsimp only
  split_ifs <;> simp [hx, hy]

/-- With the time limit reached, the per-ball phase leaves every velocity at
exactly zero and reports the ball as not moving. -/
theorem ballPhase_forced_stop (w h : ℝ) (flip : Bool) (b : Ball) :
    (ballPhase true w h flip b).1.vx = 0 ∧ (ballPhase true w h flip b).1.vy = 0 ∧
      (ballPhase true w h flip b).1.angularVelocity = 0 ∧
      (ballPhase true w h flip b).2 = false := by
  unfold ballPhase
  dsimp only
  have hz := wallClamp_zeroVel w h (zeroVel (Ball.update flip b)) rfl rfl
  refine ⟨hz.1, hz.2.1, ?_, ?_⟩
  · exact hz.2.2
  · simp
    exact ⟨rfl, rfl⟩

theorem setBall_turnState (s : GameState) (i : ℕ) (b : Ball) :
    (setBall s i b).turnState = s.turnState := by
  unfold setBall
  split <;> rfl

theorem onHitLumie_turnState (now : ℕ) (r : Bool) (i : ℕ) (s : GameState) :
    (onHitLumie now r i s).turnState = s.turnState := by
  unfold onHitLumie
  split
  · rfl
  next l heq =>
  split
  · rfl
  · dsimp only
    rw [updateScores_turnState]
    exact setBall_turnState s i _

theorem collidePair_turnState (env : TickEnv) (i j : ℕ) (t : GameState) :
    (collidePair env i j t).turnState = t.turnState := by
  unfold collidePair
  split
  next b1 b2 _ _ =>
    dsimp only
    generalize resolveCollision (env.kickA i j) (env.kickB i j) b1 b2 = R
    generalize hS1 : setBall (setBall t i R.b1) j R.b2 = S1
    have h1 : S1.turnState = t.turnState := by
      rw [← hS1, setBall_turnState, setBall_turnState]
    have h2 : (if R.hit1 = true then onHitLumie env.now (env.pickA i j) i S1
        else S1).turnState = t.turnState := by
      split
      · rw [onHitLumie_turnState, h1]
      · exact h1
    generalize hS2 : (if R.hit1 = true then onHitLumie env.now (env.pickA i j) i S1
        else S1) = S2 at h2
    split
    · rw [onHitLumie_turnState, h2]
    · exact h2
  next => rfl

theorem endTurn_turnState (a p : ℝ) (s : GameState) :
    (endTurn a p s).turnState = .aiming := rfl

theorem endTurn_allStopped (a p : ℝ) {s : GameState} (h : AllStopped s) :
    AllStopped (endTurn a p s) := by
  unfold AllStopped endTurn resetPlayerBall at *
  dsimp only
  refine ⟨?_, rfl, rfl⟩
  intro b hb
  split at hb <;> exact h.1 b hb

/-- **C10**: on a tick whose elapsed roll time exceeds 3000 ms, every body's
per-ball phase forcibly zeroes its linear and angular velocity regardless of
current speed, every body of the resulting state has zero linear velocity
(collision responses computed from zero velocities are zero), and the tick
ends the roll: the state machine leaves `rolling` (through `endTurn`, landing
in `aiming`). -/
theorem tick_after_time_cap_stops_and_ends_roll (env : TickEnv) (s : GameState)
    (hroll : s.turnState = .rolling)
    (helapsed : 3000 < env.now - s.turnStartTime) :
    (∀ flip b, (ballPhase (decide (env.now - s.turnStartTime > 3000))
        s.width s.height flip b).1.vx = 0 ∧
      (ballPhase (decide (env.now - s.turnStartTime > 3000))
        s.width s.height flip b).1.vy = 0 ∧
      (ballPhase (decide (env.now - s.turnStartTime > 3000))
        s.width s.height flip b).1.angularVelocity = 0) ∧
    AllStopped (updatePhysics env s) ∧
    (updatePhysics env s).turnState = .aiming := by
  have htl : decide (env.now - s.turnStartTime > 3000) = true :=
    decide_eq_true helapsed
  constructor
  · intro flip b
    rw [htl]
    exact ⟨(ballPhase_forced_stop _ _ flip b).1,
      (ballPhase_forced_stop _ _ flip b).2.1,
      (ballPhase_forced_stop _ _ flip b).2.2.1⟩
  unfold updatePhysics
  dsimp only
  rw [htl]
  have hmov : (((s.lumies.enum.map fun p =>
      ballPhase true s.width s.height (env.flips p.1) p.2).any fun p => p.2) ||
      (ballPhase true s.width s.height (env.flips s.lumies.length)
        s.playerBall).2) = false := by
    rw [Bool.or_eq_false_iff]
    constructor
    · rw [List.any_eq_false]
      intro p hp
      obtain ⟨q, _, rfl⟩ := List.mem_map.mp hp
      simp [(ballPhase_forced_stop s.width s.height (env.flips q.1) q.2).2.2.2]
    · exact (ballPhase_forced_stop _ _ _ _).2.2.2
  rw [hmov]
  set S1 : GameState := { s with
      lumies := (s.lumies.enum.map fun p =>
        ballPhase true s.width s.height (env.flips p.1) p.2).map fun p => p.1,
      playerBall := (ballPhase true s.width s.height (env.flips s.lumies.length)
        s.playerBall).1 } with hS1def
  have hs1 : AllStopped S1 := by
    rw [hS1def]
    refine ⟨?_, (ballPhase_forced_stop _ _ _ _).1, (ballPhase_forced_stop _ _ _ _).2.1⟩
    intro b hb
    obtain ⟨q, hq, rfl⟩ := List.mem_map.mp hb
    obtain ⟨p, _, rfl⟩ := List.mem_map.mp hq
    exact ⟨(ballPhase_forced_stop _ _ _ _).1, (ballPhase_forced_stop _ _ _ _).2.1⟩
  have hs1ts : S1.turnState = .rolling := by
    rw [hS1def]
    exact hroll
  have hfold_ts : ∀ t0 : GameState, t0.turnState = .rolling →
      (List.foldl (fun st p => collidePair env p.1 p.2 st) t0
        (collisionPairs (s.lumies.length + 1))).turnState = .rolling := by
    intro t0 h0
    refine foldl_preserve (fun t => t.turnState = .rolling) _ ?_ _ t0 h0
    intro t p hp
    have hp' : t.turnState = .rolling := hp
    show (collidePair env p.1 p.2 t).turnState = .rolling
    rw [collidePair_turnState, hp']
  have hfold_st : ∀ t0 : GameState, AllStopped t0 →
      AllStopped (List.foldl (fun st p => collidePair env p.1 p.2 st) t0
        (collisionPairs (s.lumies.length + 1))) := by
    intro t0 h0
    refine foldl_preserve AllStopped _ ?_ _ t0 h0
    intro t p hp
    exact collidePair_allStopped env p.1 p.2 hp
  rw [if_pos rfl, if_pos (hfold_ts S1 hs1ts)]
  exact ⟨endTurn_allStopped _ _ (hfold_st S1 hs1), endTurn_turnState _ _ _⟩

def rollState : GameState := midRoll [neutralLumie] .one (fun _ => none) []

def stopEnv : TickEnv :=
  { now := 4000, flips := fun _ => true, kickA := fun _ _ => 0,
    kickB := fun _ _ => 0, pickA := fun _ _ => true, pickB := fun _ _ => true,
    resetAngle := 0, resetPhase := 0 }

theorem tick_after_time_cap_stops_and_ends_roll_witness :
    AllStopped (updatePhysics stopEnv rollState) ∧
    (updatePhysics stopEnv rollState).turnState = .aiming :=
  ⟨(tick_after_time_cap_stops_and_ends_roll stopEnv rollState rfl (by decide)).2.1,
   (tick_after_time_cap_stops_and_ends_roll stopEnv rollState rfl (by decide)).2.2⟩

/- ## C1: coincident centers propagate non-finite values -/

/-- Two finite balls with exactly coincident centers (overlapping, since the
radii are positive). -/
def jball1 : JBall :=
  { x := jfin 100, y := jfin 100, r := jfin 20, mass := jfin 20,
    vx := jfin 1, vy := jfin 0, angularVelocity := jfin 0, isLumie := true }

def jball2 : JBall :=
  { x := jfin 100, y := jfin 100, r := jfin 20, mass := jfin 20,
    vx := jfin 0, vy := jfin 0, angularVelocity := jfin 0, isLumie := true }

/-- **C1**: at exactly coincident centers the source computes
`nx = dx / dist = 0 / 0`, which in JS is `NaN`; `resolveCollision` then
writes non-finite values (modelled by `none`) into both bodies' positions and
velocities. There is no guard or fallback normal in the code, so the claimed
defensive handling does not exist. -/
theorem coincident_centers_write_nonfinite :
    ((resolveCollisionJS 0.5 0.5 jball1 jball2).b1.x = none ∧
      (resolveCollisionJS 0.5 0.5 jball1 jball2).b1.vx = none) ∧
    (resolveCollisionJS 0.5 0.5 jball1 jball2).b2.y = none ∧
      (resolveCollisionJS 0.5 0.5 jball1 jball2).b2.vy = none := by
  have hsq : ((100 : ℝ) - 100) ^ 2 + ((100 : ℝ) - 100) ^ 2 = 0 := by norm_num
  have hlt : jlt (jhypot (jsub jball2.x jball1.x) (jsub jball2.y jball1.y))
      (jadd jball1.r jball2.r) := by
    show jlt (jhypot (jsub (jfin 100) (jfin 100)) (jsub (jfin 100) (jfin 100)))
      (jadd (jfin 20) (jfin 20))
    simp only [jfin, jsub, jadd, jhypot, jlt]
    rw [hsq, Real.sqrt_zero]
    norm_num
  have hnx : jdiv (jsub jball2.x jball1.x)
      (jhypot (jsub jball2.x jball1.x) (jsub jball2.y jball1.y)) = none := by
    show jdiv (jsub (jfin 100) (jfin 100))
      (jhypot (jsub (jfin 100) (jfin 100)) (jsub (jfin 100) (jfin 100))) = none
    simp only [jfin, jsub, jhypot, jdiv]
    rw [hsq, Real.sqrt_zero]
    simp
  have hny : jdiv (jsub jball2.y jball1.y)
      (jhypot (jsub jball2.x jball1.x) (jsub jball2.y jball1.y)) = none := by
    show jdiv (jsub (jfin 100) (jfin 100))
      (jhypot (jsub (jfin 100) (jfin 100)) (jsub (jfin 100) (jfin 100))) = none
    simp only [jfin, jsub, jhypot, jdiv]
    rw [hsq, Real.sqrt_zero]
    simp
  unfold resolveCollisionJS
  dsimp only
  rw [if_pos hlt]
  dsimp only
  rw [hnx, hny]
  simp [jsub, jadd, jmul, jneg]

end Lumios
